import Mathlib

/-!
Shallow embedding of the video ingest, status-polling and playback logic of the
movie-catalog frontend (admin `VideoUploadPanel`, `MovieDetail` page,
`MovieFrames` strip and the HLS `VideoPlayer`), together with proofs checking
the natural-language specification of the pipeline against this code.

Conventions: JS numbers are embedded as `ℚ` (exact values; no floating point
rounding is modelled), byte sizes and pixel heights as `ℕ`, strings as `String`.
JS truthiness on optional strings/numbers (`x || d`) is embedded explicitly.
-/

/-- Character for a single decimal digit value (`0 ↦ '0'`, ..., `9 ↦ '9'`),
as in the decimal rendering JS template interpolation performs. -/
def digitChar (d : Nat) : Char := Char.ofNat (48 + d)

/-- Big-endian decimal digit characters of a positive number; the fuel
argument only forces structural termination and is in excess. -/
def natStrAux : Nat → Nat → List Char
  | 0, _ => []
  | fuel + 1, n => if n = 0 then [] else natStrAux fuel (n / 10) ++ [digitChar (n % 10)]

/-- Decimal rendering of a natural number, the JS `String(n)` conversion used
when a number is spliced into a template literal. -/
def natStr (n : Nat) : String :=
  if n = 0 then "0" else ⟨natStrAux n n⟩

/-- JS `parseInt` on a string: reads the longest leading run of decimal digits
and returns their value; `none` stands for `NaN` (no leading digit). -/
def parseIntLeading (s : String) : Option Nat :=
  let ds := s.data.takeWhile (fun c => c.isDigit)
  if ds.isEmpty then none
  else some (Nat.ofDigits 10 ((ds.map (fun c => c.toNat - 48)).reverse))

/-- Decimal digits of the fractional part of a rational in `[0,1)`, with
bounded precision (fuel); inputs representable as JS numbers terminate well
inside the bound, matching how JS prints a terminating decimal. -/
def fracDigits : Nat → ℚ → String
  | 0, _ => ""
  | fuel + 1, q =>
    if q = 0 then ""
    else ⟨[digitChar (⌊q * 10⌋).toNat]⟩ ++ fracDigits fuel (q * 10 - ⌊q * 10⌋)

/-- Decimal rendering of a nonnegative rational, the JS number-to-string
conversion restricted to the nonnegative values the components feed it. -/
def ratStr (q : ℚ) : String :=
  if q - ⌊q⌋ = 0 then natStr (⌊q⌋).toNat
  else natStr (⌊q⌋).toNat ++ "." ++ fracDigits 20 (q - ⌊q⌋)

/-- JS `s.startsWith(pre)`, embedded on the character lists. -/
def strStartsWith (s pre : String) : Bool := pre.data.isPrefixOf s.data

/-- JS `x || d` on an optional string (`undefined` and `""` are falsy). -/
def jsOrStr (v : Option String) (dflt : String) : String :=
  match v with
  | none => dflt
  | some s => if s = "" then dflt else s

/-- JS `x || d` on an optional number (`undefined` and `0` are falsy). -/
def jsOrNum (v : Option ℚ) (dflt : ℚ) : ℚ :=
  match v with
  | none => dflt
  | some x => if x = 0 then dflt else x

namespace VideoUploadPanel

/-- Mirror of the `UploadTask.status` union in `VideoUploadPanel.tsx`. -/
inductive TaskStatus where
  | uploading
  | processing
  | completed
  | failed
deriving DecidableEq, Repr

/-- Mirror of the `UploadTask` record tracked in the `uploadTasks` state
(the `file` field is flattened away; only fields the logic reads are kept). -/
structure UploadTask where
  id : String
  movieId : Nat
  movieTitle : String
  status : TaskStatus
  progress : ℚ
  error : Option String
deriving DecidableEq

/-- Default task used with positional `List.getD` lookups. -/
def dTask : UploadTask := ⟨"", 0, "", .uploading, 0, none⟩

/-- Body of a status response polled from `/api/admin/upload/status/...`:
the `status` string together with the fields each branch of
`pollProcessingStatus` reads. -/
inductive StatusResp where
  | completed
  | failed (error : Option String)
  | processing (progress : Option ℚ) (message : Option String)
  | other (status : String)
deriving DecidableEq

/-- Update of one task by one poll response, the function mapped over
`uploadTasks` inside `pollProcessingStatus` (lines 197-224): the `completed`
branch fixes the status, the `failed` branch records the error, and the
`processing` branch overwrites `progress` with `status.progress || 0`; any
other status string leaves the task unchanged. -/
def applyStatus (taskId : String) (st : StatusResp) (t : UploadTask) : UploadTask :=
  if t.id = taskId then
    match st with
    | .completed => { t with status := .completed }
    | .failed e => { t with status := .failed, error := some (jsOrStr e "Processing failed") }
    | .processing p msg =>
        { t with
          progress := jsOrNum p 0,
          error := some (jsOrStr msg ("Processing... " ++ ratStr (jsOrNum p 0) ++ "%")) }
    | .other _ => t
  else t

/-- One polling tick: `setUploadTasks(prev => prev.map(task => ...))`. -/
def pollTick (tasks : List UploadTask) (taskId : String) (st : StatusResp) : List UploadTask :=
  tasks.map (applyStatus taskId st)

/-- Update applied when the upload POST returns (lines 161-165):
`{ ...task, status: 'processing', progress: 100 }`. -/
def markProcessing (tasks : List UploadTask) (taskId : String) : List UploadTask :=
  tasks.map (fun t =>
    if t.id = taskId then { t with status := .processing, progress := 100 } else t)

/-- Percentage the panel reports externally for a task: both the progress-bar
width `width: task.progress + percent` and the `task.progress + percent` label
render the stored value directly (lines 308-323). -/
def displayedProgress (t : UploadTask) : ℚ := t.progress

/-- Outcome of `handleFileSelect`: either the upload is submitted
(`uploadVideo` is called, creating an upload task) or the function returns
early with a validation alert and no task is created. -/
inductive UploadDecision where
  | submit
  | typeError
  | sizeError
  | noFile
deriving DecidableEq, Repr

/-- The two fields of the selected `File` the validation reads. -/
structure JsFile where
  type : String
  size : Nat
deriving DecidableEq

/-- Hard-coded bound `const maxSize = 10 * 1024 * 1024 * 1024` (line 119). -/
def maxSize : Nat := 10 * 1024 * 1024 * 1024

/-- Validation in `handleFileSelect` (lines 107-126): no file selected is an
early return; a MIME type not starting with `video/` is rejected; a size
over `maxSize` is rejected; otherwise `uploadVideo(movie, file)` is invoked. -/
def handleFileSelect (files : List JsFile) : UploadDecision :=
  match files with
  | [] => .noFile
  | file :: _ =>
    if ¬ strStartsWith file.type "video/" then .typeError
    else if file.size > maxSize then .sizeError
    else .submit

/-- Modelled from the spec: the ingest validation with the maximum upload size
as an externally supplied configuration value ("size ≤ a configured maximum,
reject otherwise with a size-limit error"), recognising the same content
types as the code. Used only to compare against `handleFileSelect`. -/
def specIngestValidate (maxUpload : Nat) (files : List JsFile) : UploadDecision :=
  match files with
  | [] => .noFile
  | file :: _ =>
    if ¬ strStartsWith file.type "video/" then .typeError
    else if file.size > maxUpload then .sizeError
    else .submit

/-- Polling cadence hard-coded in `pollProcessingStatus` (line 229). -/
def pollIntervalMs : Nat := 2000

/-- Polling cut-off hard-coded in `pollProcessingStatus` (line 232). -/
def pollTimeoutMs : Nat := 30 * 60 * 1000

end VideoUploadPanel

/-- JS `%` on numbers, as used on nonnegative time values and positive
divisors by both `formatTime` helpers: the remainder `a - b * ⌊a / b⌋`. -/
def jsMod (a b : ℚ) : ℚ := a - b * ⌊a / b⌋

/-- JS `s.padStart(2, '0')`. -/
def padTwo (s : String) : String := ⟨List.replicate (2 - s.length) '0'⟩ ++ s

namespace MovieTypes

/-- Mirror of the `processing_status` union in `types/movie.ts` (also the
`Movie` interface of `VideoUploadPanel.tsx`, lines 6-15):
`'pending' | 'processing' | 'completed' | 'failed'`. -/
inductive ProcessingStatus where
  | pending
  | processing
  | completed
  | failed
deriving DecidableEq, Repr

/-- Membership of a runtime status string in that union type: the statuses
the presentation layer can represent. -/
def statusOfString (s : String) : Option ProcessingStatus :=
  if s = "pending" then some .pending
  else if s = "processing" then some .processing
  else if s = "completed" then some .completed
  else if s = "failed" then some .failed
  else none

end MovieTypes

namespace MovieDetail

/-- The fields of the movie record the player section of `MovieDetail`
(src/unnamed/part_013) reads. The processing status is kept as the raw
runtime string, since the component compares it against string literals. -/
structure Movie where
  id : Nat
  video_file_id : Option String
  processing_status : Option String
  hls_manifest_url : Option String
  duration_seconds : Option ℚ
deriving DecidableEq

/-- JS truthiness of an optional string (`undefined` and `""` are falsy). -/
def truthyStr : Option String → Bool
  | none => false
  | some s => s != ""

/-- Default of `process.env.NEXT_PUBLIC_API_URL || 'http://localhost:8000'`. -/
def API_BASE_URL : String := "http://localhost:8000"

/-- Stream source handed to the `VideoPlayer` (part_013 line 285). -/
def streamSrc (id : Nat) : String :=
  API_BASE_URL ++ "/api/stream/" ++ natStr id ++ "/playlist.m3u8"

/-- What the video-player section of the page renders. Only the `player`
alternative mounts the `VideoPlayer`, i.e. issues the manifest request. -/
inductive PlayerSection where
  | player (src : String)
  | processingNotice
  | failedNotice
  | unavailableNotice
  | absent
deriving DecidableEq, Repr

/-- The player-section conditional of `MovieDetail` (part_013 lines 275-337):
the section exists only for a truthy `video_file_id`; the `VideoPlayer` is
mounted when the status is `completed` and `hls_manifest_url` is truthy;
`processing` and `queued` show the in-progress notice; `failed` shows the
failure notice; anything else shows the unavailable notice. -/
def renderPlayerSection (m : Movie) : PlayerSection :=
  if truthyStr m.video_file_id then
    if m.processing_status = some "completed" ∧ truthyStr m.hls_manifest_url then
      .player (streamSrc m.id)
    else if m.processing_status = some "processing" ∨ m.processing_status = some "queued" then
      .processingNotice
    else if m.processing_status = some "failed" then
      .failedNotice
    else
      .unavailableNotice
  else
    .absent

end MovieDetail

namespace MovieFrames

/-- Mirror of the `Thumbnail` interface in `MovieFrames.tsx`. -/
structure Thumbnail where
  timestamp : ℚ
  url : String
deriving DecidableEq

/-- `selectEvenlyDistributedFrames` (MovieFrames.tsx lines 55-72): keeps the
thumbnails with positive timestamp, returns all of them when there are at
most `count`, and otherwise picks `count` of them at indices
`min(i * step, length - 1)` for `step = ⌊length / count⌋`. -/
def selectEvenlyDistributedFrames (allThumbnails : List Thumbnail) (count : Nat) :
    List Thumbnail :=
  if allThumbnails.length = 0 then []
  else
    let filteredThumbnails := allThumbnails.filter (fun t => 0 < t.timestamp)
    if filteredThumbnails.length = 0 then []
    else if filteredThumbnails.length ≤ count then filteredThumbnails
    else
      let step := filteredThumbnails.length / count
      (List.range count).map (fun i =>
        filteredThumbnails.getD (min (i * step) (filteredThumbnails.length - 1)) ⟨0, ""⟩)

/-- Resolution of the thumbnails fetch: a response body (with
`data.thumbnails || []` already applied) or a thrown/HTTP error. -/
inductive FetchResult where
  | ok (thumbnails : List Thumbnail)
  | err
deriving DecidableEq

/-- The component state `fetchThumbnails` leaves behind (lines 31-53). -/
structure FramesState where
  error : Option String
  thumbnails : List Thumbnail
  selectedFrames : List Thumbnail
deriving DecidableEq

/-- `fetchThumbnails` (lines 31-53): a failed fetch is caught and recorded in
the `error` state (nothing is rethrown); a successful fetch stores the list
and, when it is nonempty, selects 6 evenly distributed frames. -/
def fetchThumbnails (r : FetchResult) : FramesState :=
  match r with
  | .err => { error := some "Не удалось загрузить кадры", thumbnails := [], selectedFrames := [] }
  | .ok ts =>
      { error := none
        thumbnails := ts
        selectedFrames := if ts.length > 0 then selectEvenlyDistributedFrames ts 6 else [] }

/-- Render decision after loading (lines 109-111): `error` set or an empty
selection renders nothing (`return null`); otherwise the selected frames
are rendered in order. -/
def render (st : FramesState) : Option (List Thumbnail) :=
  if st.error.isSome ∨ st.selectedFrames.length = 0 then none
  else some st.selectedFrames

/-- `formatTime` of `MovieFrames.tsx` (lines 74-83): hours and minutes are
floored, but the seconds field `seconds % 60` is rendered as-is. -/
def formatTime (seconds : ℚ) : String :=
  let hours := (⌊seconds / 3600⌋).toNat
  let minutes := (⌊jsMod seconds 3600 / 60⌋).toNat
  let secs := jsMod seconds 60
  if hours > 0 then
    natStr hours ++ ":" ++ padTwo (natStr minutes) ++ ":" ++ padTwo (ratStr secs)
  else
    natStr minutes ++ ":" ++ padTwo (ratStr secs)

end MovieFrames

namespace VideoPlayer

/-- Quality label computed per HLS level height in the MANIFEST_PARSED
handler (part_007 lines 111-122). -/
def qualityLabel (height : Nat) : String :=
  if height ≥ 2160 then "4K"
  else if height ≥ 1080 then "1080p"
  else if height ≥ 720 then "720p"
  else if height ≥ 480 then "480p"
  else natStr height ++ "p"

/-- Target height decoded from a label in `changeQuality`:
`quality === '4K' ? 2160 : parseInt(quality)`. -/
def qualityHeight (quality : String) : Option Nat :=
  if quality = "4K" then some 2160 else parseIntLeading quality

/-- Level switch of `changeQuality` (part_007 lines 301-321), tracking the
selected level index: `auto` selects `-1`; otherwise the first level whose
height equals the decoded target is selected, and a missing target (or a
`NaN` decode) leaves the current level unchanged. -/
def changeQuality (levels : List Nat) (currentLevel : Int) (quality : String) : Int :=
  if quality = "auto" then -1
  else
    match qualityHeight quality with
    | none => currentLevel
    | some h =>
      match levels.findIdx? (fun lv => lv = h) with
      | some i => (i : Int)
      | none => currentLevel

/-- The exact rendition-ladder heights named in the player labels. -/
def ladderHeights : List Nat := [480, 720, 1080, 2160]

/-- The ladder height a label produced for a height of at least 480 decodes
back to (the largest ladder height not exceeding it), following the branch
structure of `qualityLabel`. -/
def ladderOf (height : Nat) : Nat :=
  if height ≥ 2160 then 2160
  else if height ≥ 1080 then 1080
  else if height ≥ 720 then 720
  else 480

/-- `formatTime` of the player (part_007 lines 356-365): hours, minutes and
seconds are all floored. -/
def formatTime (time : ℚ) : String :=
  let hours := (⌊time / 3600⌋).toNat
  let minutes := (⌊jsMod time 3600 / 60⌋).toNat
  let seconds := (⌊jsMod time 60⌋).toNat
  if hours > 0 then
    natStr hours ++ ":" ++ padTwo (natStr minutes) ++ ":" ++ padTwo (natStr seconds)
  else
    natStr minutes ++ ":" ++ padTwo (natStr seconds)

end VideoPlayer

section ClaimStatements

/-- Claim C1 as stated: across one poll update, the stored percentage at
every position of the task list is non-decreasing (an update that would
lower it is discarded rather than applied). -/
def progressMonotone : Prop :=
  ∀ (tasks : List VideoUploadPanel.UploadTask) (taskId : String)
    (st : VideoUploadPanel.StatusResp) (i : Nat),
    (tasks.getD i VideoUploadPanel.dTask).progress ≤
      ((VideoUploadPanel.pollTick tasks taskId st).getD i VideoUploadPanel.dTask).progress

/-- Claim C3 as stated: whatever raw progress a processing update carries,
the externally displayed percentage lies in `[0, 100]` and is an integer. -/
def reportedProgressPolicy : Prop :=
  ∀ (t : VideoUploadPanel.UploadTask) (p : Option ℚ) (msg : Option String),
    0 ≤ VideoUploadPanel.displayedProgress
        (VideoUploadPanel.applyStatus t.id (.processing p msg) t) ∧
      VideoUploadPanel.displayedProgress
        (VideoUploadPanel.applyStatus t.id (.processing p msg) t) ≤ 100 ∧
      (VideoUploadPanel.displayedProgress
        (VideoUploadPanel.applyStatus t.id (.processing p msg) t)).den = 1

/-- The five states claim C5 says the presentation layer sees. -/
def fivePresentationStates : List String :=
  ["pending", "processing", "completed", "failed", "cancelled"]

/-- Claim C5 as stated: every member of the five-state set is representable
in the presentation status type, and status values outside that set are not
specifically handled (two such values render identically). -/
def presentationStatesClosed : Prop :=
  (∀ s ∈ fivePresentationStates, (MovieTypes.statusOfString s).isSome = true) ∧
    ∀ (m : MovieDetail.Movie) (s₁ s₂ : String),
      s₁ ∉ fivePresentationStates → s₂ ∉ fivePresentationStates →
      MovieDetail.renderPlayerSection { m with processing_status := some s₁ } =
        MovieDetail.renderPlayerSection { m with processing_status := some s₂ }

/-- Claim C6 as stated (for the ingest size bound): the validation respects
an externally supplied maximum, i.e. it agrees with the spec's configurable
validation whatever the configured maximum is. -/
def configuredSizeBound : Prop :=
  ∀ (maxUpload : Nat) (files : List VideoUploadPanel.JsFile),
    VideoUploadPanel.handleFileSelect files =
      VideoUploadPanel.specIngestValidate maxUpload files

/-- Claim C9 as stated: labels of exact ladder heights round-trip to a level
of the original height, and a level of any other height produces a label
that matches no level, leaving the current level unchanged. -/
def qualityRoundTrip : Prop :=
  (∀ (levels : List Nat) (cur : Int) (h : Nat), h ∈ levels →
      h ∈ VideoPlayer.ladderHeights →
      ∃ j : Nat, VideoPlayer.changeQuality levels cur (VideoPlayer.qualityLabel h) = (j : Int) ∧
        levels.getD j 0 = h) ∧
    ∀ (levels : List Nat) (cur : Int) (h : Nat), h ∈ levels →
      h ∉ VideoPlayer.ladderHeights →
      VideoPlayer.changeQuality levels cur (VideoPlayer.qualityLabel h) = cur

/-- Claim C10 as stated: the two `formatTime` helpers agree on every
nonnegative time value. -/
def formatTimeAgreement : Prop :=
  ∀ q : ℚ, 0 ≤ q → VideoPlayer.formatTime q = MovieFrames.formatTime q

end ClaimStatements

section Helpers

theorem takeWhile_append_all {α : Type} (p : α → Bool) (l₁ l₂ : List α)
    (h : ∀ a ∈ l₁, p a = true) :
    List.takeWhile p (l₁ ++ l₂) = l₁ ++ List.takeWhile p l₂ := by
  induction l₁ with
  | nil => simp
  | cons x xs ih =>
    have hx := h x (List.mem_cons_self _ _)
    simp only [List.cons_append, List.takeWhile_cons, hx, if_true]
    rw [ih (fun a ha => h a (List.mem_cons_of_mem _ ha))]

theorem digitChar_isDigit {d : Nat} (hd : d < 10) : (digitChar d).isDigit = true := by
  interval_cases d <;> decide

theorem digitChar_toNat {d : Nat} (hd : d < 10) : (digitChar d).toNat - 48 = d := by
  interval_cases d <;> decide

theorem natStrAux_eq_digits : ∀ (fuel n : Nat), n ≤ fuel →
    natStrAux fuel n = ((Nat.digits 10 n).map digitChar).reverse := by
  intro fuel
  induction fuel with
  | zero =>
    intro n hn
    interval_cases n
    simp [natStrAux]
  | succ fuel ih =>
    intro n hn
    by_cases h : n = 0
    · simp [natStrAux, h]
    · rw [natStrAux, if_neg h, ih (n / 10) (by
        have := Nat.div_lt_self (Nat.pos_of_ne_zero h) (by norm_num : 1 < 10)
        omega)]
      rw [Nat.digits_def' (by norm_num : 1 < 10) (Nat.pos_of_ne_zero h)]
      simp

theorem mem_natStr_isDigit {n : Nat} :
    ∀ c ∈ ((Nat.digits 10 n).map digitChar).reverse, c.isDigit = true := by
  intro c hc
  rw [List.mem_reverse, List.mem_map] at hc
  obtain ⟨d, hd, rfl⟩ := hc
  exact digitChar_isDigit (Nat.digits_lt_base (by norm_num) hd)

theorem parse_natStr_append_p (n : Nat) :
    parseIntLeading (natStr n ++ "p") = some n := by
  by_cases h : n = 0
  · subst h; decide
  · have hdata : (natStr n ++ "p").data = ((Nat.digits 10 n).map digitChar).reverse ++ ['p'] := by
      rw [natStr, if_neg h, natStrAux_eq_digits n n le_rfl]
      rfl
    unfold parseIntLeading
    rw [hdata, takeWhile_append_all _ _ _ mem_natStr_isDigit]
    have hp : List.takeWhile (fun c => c.isDigit) ['p'] = [] := by decide
    rw [hp, List.append_nil]
    have hne : (Nat.digits 10 n) ≠ [] := Nat.digits_ne_nil_iff_ne_zero.mpr h
    rw [if_neg (by simpa using hne)]
    congr 1
    rw [List.map_reverse, List.map_map, List.reverse_reverse]
    have : (Nat.digits 10 n).map ((fun c => c.toNat - 48) ∘ digitChar) = Nat.digits 10 n := by
      refine List.map_congr_left ?_ |>.trans (List.map_id _)
      intro d hd
      exact digitChar_toNat (Nat.digits_lt_base (by norm_num) hd)
    rw [this, Nat.ofDigits_digits]

end Helpers
theorem pairwise_lt_map_pred {idxs : List Nat} (hpw : idxs.Pairwise (· < ·))
    (h1 : ∀ j ∈ idxs, 1 ≤ j) : (idxs.map (fun j => j - 1)).Pairwise (· < ·) := by
  refine (List.pairwise_map).mpr (hpw.imp_of_mem ?_)
  intro a b ha _ hab
  have := h1 a ha
  omega

theorem map_getD_sublist {α : Type} (d : α) :
    ∀ (l : List α) (idxs : List Nat), idxs.Pairwise (· < ·) →
      (∀ i ∈ idxs, i < l.length) →
      (idxs.map (fun i => l.getD i d)).Sublist l := by
  intro l
  induction l with
  | nil =>
    intro idxs _ hb
    match idxs with
    | [] => simp
    | i :: _ => exact absurd (hb i (List.mem_cons_self _ _)) (by simp)
  | cons x xs ih =>
    intro idxs hpw hb
    match idxs with
    | [] => simp
    | 0 :: rest =>
      have hrest : ∀ j ∈ rest, 1 ≤ j := fun j hj => (List.pairwise_cons.mp hpw).1 j hj
      have hmap : rest.map (fun i => (x :: xs).getD i d) =
          (rest.map (fun j => j - 1)).map (fun k => xs.getD k d) := by
        rw [List.map_map]
        refine List.map_congr_left ?_
        intro j hj
        obtain ⟨k, rfl⟩ : ∃ k, j = k + 1 := ⟨j - 1, by have := hrest j hj; omega⟩
        simp
      simp only [List.map_cons, List.getD_cons_zero, hmap]
      refine List.Sublist.cons₂ _ (ih _ (pairwise_lt_map_pred (List.pairwise_cons.mp hpw).2 hrest) ?_)
      intro k hk
      obtain ⟨j, hj, rfl⟩ := List.mem_map.mp hk
      have hb' := hb j (List.mem_cons_of_mem _ hj)
      have h1 := hrest j hj
      simp only [List.length_cons] at hb'
      omega
    | (i + 1) :: rest =>
      have hall : ∀ j ∈ (i + 1) :: rest, 1 ≤ j := by
        intro j hj
        rcases List.mem_cons.mp hj with rfl | hmem
        · omega
        · have := (List.pairwise_cons.mp hpw).1 j hmem; omega
      have hmap : ((i + 1) :: rest).map (fun j => (x :: xs).getD j d) =
          (((i + 1) :: rest).map (fun j => j - 1)).map (fun k => xs.getD k d) := by
        rw [List.map_map]
        refine List.map_congr_left ?_
        intro j hj
        obtain ⟨k, rfl⟩ : ∃ k, j = k + 1 := ⟨j - 1, by have := hall j hj; omega⟩
        simp
      rw [hmap]
      refine List.Sublist.cons _ (ih _ (pairwise_lt_map_pred hpw hall) ?_)
      intro k hk
      obtain ⟨j, hj, rfl⟩ := List.mem_map.mp hk
      have hb' := hb j hj
      have h1 := hall j hj
      simp only [List.length_cons] at hb'
      omega

theorem findIdx?_spec {α : Type} (p : α → Bool) (d : α) :
    ∀ (l : List α), (∃ a ∈ l, p a = true) →
      ∃ j, l.findIdx? p = some j ∧ j < l.length ∧ p (l.getD j d) = true := by
  intro l
  induction l with
  | nil => rintro ⟨a, ha, _⟩; cases ha
  | cons x xs ih =>
    rintro ⟨a, ha, hp⟩
    by_cases hx : p x
    · exact ⟨0, by simp [List.findIdx?_cons, hx], Nat.succ_pos _, by simpa using hx⟩
    · have hex : ∃ a ∈ xs, p a = true := by
        rcases List.mem_cons.mp ha with rfl | hmem
        · exact absurd hp (by simpa using hx)
        · exact ⟨a, hmem, hp⟩
      obtain ⟨j, hj, hjl, hjp⟩ := ih hex
      refine ⟨j + 1, ?_, Nat.succ_lt_succ hjl, by simpa using hjp⟩
      simp [List.findIdx?_cons, hx, hj]
/-- Claim C1 is false on the code: `pollProcessingStatus` overwrites the
stored percentage with whatever a `processing` update reports, so an update
lower than the stored value (here 5 against a stored 100) is applied, not
discarded. -/
theorem progress_monotonicity_fails : ¬ progressMonotone := by
  intro h
  have := h [⟨"t", 1, "M", .processing, 100, none⟩] "t"
    (.processing (some 5) none) 0
  revert this
  decide

/-- Claim C1 amended: a `processing` poll update overwrites the stored
percentage of the matching task with the reported raw value (or 0 when
absent), regardless of the currently stored percentage; in particular an
update lower than the stored value is applied, not discarded. -/
theorem processing_update_overwrites_progress
    (tasks : List VideoUploadPanel.UploadTask) (taskId : String)
    (p : Option ℚ) (msg : Option String) (i : Nat) (hi : i < tasks.length)
    (hid : (tasks.getD i VideoUploadPanel.dTask).id = taskId) :
    ((VideoUploadPanel.pollTick tasks taskId (.processing p msg)).getD i
        VideoUploadPanel.dTask).progress = jsOrNum p 0 := by
  unfold VideoUploadPanel.pollTick
  rw [List.getD_eq_getElem _ _ (by simpa using hi), List.getElem_map]
  rw [List.getD_eq_getElem _ _ hi] at hid
  simp [VideoUploadPanel.applyStatus, hid]

/-- Witness for the amended C1 theorem at a concrete task list. -/
theorem processing_update_overwrites_progress_witness :
    ((VideoUploadPanel.pollTick [VideoUploadPanel.dTask] ""
        (.processing (some 42) none)).getD 0 VideoUploadPanel.dTask).progress =
      jsOrNum (some 42) 0 :=
  processing_update_overwrites_progress [VideoUploadPanel.dTask] ""
    (some 42) none 0 (by decide) (by decide)

/-- Claim C2: a selected file is submitted for upload (creating an upload
task) exactly when its MIME type is a video type and its size is within the
maximum; otherwise `handleFileSelect` rejects it with a type or size
validation error and no upload happens. -/
theorem upload_submitted_iff_valid (file : VideoUploadPanel.JsFile)
    (rest : List VideoUploadPanel.JsFile) :
    (VideoUploadPanel.handleFileSelect (file :: rest) = .submit ↔
      strStartsWith file.type "video/" = true ∧ file.size ≤ VideoUploadPanel.maxSize) ∧
    (VideoUploadPanel.handleFileSelect (file :: rest) = .submit ∨
      VideoUploadPanel.handleFileSelect (file :: rest) = .typeError ∨
      VideoUploadPanel.handleFileSelect (file :: rest) = .sizeError) := by
  unfold VideoUploadPanel.handleFileSelect
  by_cases ht : strStartsWith file.type "video/"
  · by_cases hs : file.size ≤ VideoUploadPanel.maxSize
    · simp [ht, hs, Nat.not_lt.mpr hs]
    · simp [ht, hs, Nat.lt_of_not_le hs]
  · simp [ht]

/-- Claim C3 is false on the code: the panel displays the stored progress
verbatim, so a raw `processing` progress of 150 is displayed as 150,
outside `[0, 100]`. -/
theorem reported_progress_policy_fails : ¬ reportedProgressPolicy := by
  intro h
  have := (h VideoUploadPanel.dTask (some 150) none).2.1
  revert this
  decide

/-- Claim C3 amended: the externally displayed percentage is exactly the raw
value carried by the `processing` update (or 0 when absent): no clamping to
`[0, 100]` and no rounding is applied anywhere between the status response
and the rendered percentage. -/
theorem displayed_progress_equals_raw (t : VideoUploadPanel.UploadTask)
    (p : Option ℚ) (msg : Option String) :
    VideoUploadPanel.displayedProgress
        (VideoUploadPanel.applyStatus t.id (.processing p msg) t) = jsOrNum p 0 := by
  simp [VideoUploadPanel.displayedProgress, VideoUploadPanel.applyStatus]
/-- Claim C4: the `VideoPlayer` (and hence the manifest request) is mounted
only when the processing status is `completed` and a manifest reference is
truthy; in every other state the section renders a notice and makes no
manifest request. -/
theorem manifest_requested_only_when_completed (m : MovieDetail.Movie) (src : String)
    (h : MovieDetail.renderPlayerSection m = .player src) :
    m.processing_status = some "completed" ∧
      MovieDetail.truthyStr m.hls_manifest_url = true := by
  unfold MovieDetail.renderPlayerSection at h
  by_cases hv : MovieDetail.truthyStr m.video_file_id
  · rw [if_pos hv] at h
    by_cases hc : m.processing_status = some "completed" ∧
        MovieDetail.truthyStr m.hls_manifest_url = true
    · exact hc
    · rw [if_neg hc] at h
      by_cases h2 : m.processing_status = some "processing" ∨
          m.processing_status = some "queued"
      · rw [if_pos h2] at h; simp at h
      · rw [if_neg h2] at h
        by_cases h3 : m.processing_status = some "failed"
        · rw [if_pos h3] at h; simp at h
        · rw [if_neg h3] at h; simp at h
  · rw [if_neg hv] at h; simp at h

/-- Witness for C4 at a concrete completed movie. -/
theorem manifest_requested_only_when_completed_witness :
    (⟨1, some "v", some "completed", some "u", some 100⟩ :
        MovieDetail.Movie).processing_status = some "completed" ∧
      MovieDetail.truthyStr (⟨1, some "v", some "completed", some "u", some 100⟩ :
        MovieDetail.Movie).hls_manifest_url = true :=
  manifest_requested_only_when_completed
    ⟨1, some "v", some "completed", some "u", some 100⟩
    (MovieDetail.streamSrc 1) (by decide)

/-- Claim C5 is false on the code: `cancelled` is one of the five states the
claim requires the presentation layer to represent, but the frontend status
type has no such member. -/
theorem presentation_states_closed_fails : ¬ presentationStatesClosed := by
  intro h
  have := h.1 "cancelled" (by decide)
  revert this
  decide

/-- Claim C5 amended: the presentation status type represents exactly
`pending`, `processing`, `completed` and `failed` (so `cancelled` is not
representable), and the detail page additionally branches on the internal
state `queued`, rendering it like `processing`. -/
theorem presentation_status_type_and_queued :
    (∀ s : String, (MovieTypes.statusOfString s).isSome = true ↔
        s ∈ ["pending", "processing", "completed", "failed"]) ∧
    ∀ m : MovieDetail.Movie, MovieDetail.truthyStr m.video_file_id = true →
      m.processing_status = some "queued" →
      MovieDetail.renderPlayerSection m = .processingNotice := by
  constructor
  · intro s
    by_cases h1 : s = "pending"
    · simp [MovieTypes.statusOfString, h1]
    · by_cases h2 : s = "processing"
      · simp [MovieTypes.statusOfString, h1, h2]
      · by_cases h3 : s = "completed"
        · simp [MovieTypes.statusOfString, h1, h2, h3]
        · by_cases h4 : s = "failed"
          · simp [MovieTypes.statusOfString, h1, h2, h3, h4]
          · simp [MovieTypes.statusOfString, h1, h2, h3, h4]
  · intro m hv hq
    simp [MovieDetail.renderPlayerSection, hv, hq]

/-- Witness for the amended C5 theorem: a queued movie with a video file
renders the in-progress notice. -/
theorem presentation_status_type_and_queued_witness :
    MovieDetail.renderPlayerSection ⟨7, some "vf", some "queued", none, none⟩ =
      .processingNotice :=
  presentation_status_type_and_queued.2 ⟨7, some "vf", some "queued", none, none⟩
    (by decide) rfl

/-- Claim C6 is false on the code: the ingest validation does not respect an
externally configured maximum; with a configured maximum of 1000 bytes, a
2000-byte video file is still submitted, because the bound in the code is
the fixed literal 10 GiB. -/
theorem configured_size_bound_fails : ¬ configuredSizeBound := by
  intro h
  have := h 1000 [⟨"video/mp4", 2000⟩]
  revert this
  decide

/-- Claim C6 amended: the size bound of the ingest validation is the
hard-coded literal `10 * 1024 * 1024 * 1024` (the code coincides with the
spec's configurable validation only at that value), and the polling cadence
is the hard-coded 2000 ms. -/
theorem size_bound_is_fixed_literal :
    (∀ files : List VideoUploadPanel.JsFile,
      VideoUploadPanel.handleFileSelect files =
        VideoUploadPanel.specIngestValidate (10 * 1024 * 1024 * 1024) files) ∧
    VideoUploadPanel.pollIntervalMs = 2000 := by
  exact ⟨fun files => rfl, rfl⟩
theorem select_sublist_filter (allThumbnails : List MovieFrames.Thumbnail) (count : Nat) :
    (MovieFrames.selectEvenlyDistributedFrames allThumbnails count).Sublist
      (allThumbnails.filter (fun t => 0 < t.timestamp)) := by
  simp only [MovieFrames.selectEvenlyDistributedFrames]
  by_cases h0 : allThumbnails.length = 0
  · simp [h0]
  · rw [if_neg h0]
    by_cases h1 : (allThumbnails.filter (fun t => 0 < t.timestamp)).length = 0
    · rw [if_pos h1]; exact List.nil_sublist _
    · rw [if_neg h1]
      by_cases h2 : (allThumbnails.filter (fun t => 0 < t.timestamp)).length ≤ count
      · rw [if_pos h2]
      · rw [if_neg h2]
        by_cases hc : count = 0
        · simp [hc]
        set filtered := allThumbnails.filter (fun t => 0 < t.timestamp) with hfil
        set step := filtered.length / count with hstep
        have hcpos : 0 < count := Nat.pos_of_ne_zero hc
        have hlen : count < filtered.length := Nat.lt_of_not_le h2
        have hstep1 : 1 ≤ step := (Nat.one_le_div_iff hcpos).mpr (le_of_lt hlen)
        have hbound : ∀ i, i < count → i * step + 1 ≤ filtered.length := by
          intro i hi
          have hmul : (i + 1) * step ≤ count * step :=
            Nat.mul_le_mul_right _ (Nat.succ_le_of_lt hi)
          have hdiv : count * step ≤ filtered.length := by
            rw [hstep, Nat.mul_comm]
            exact Nat.div_mul_le_self _ _
          have : i * step + step = (i + 1) * step := by ring
          omega
        have hmin : (List.range count).map
              (fun i => filtered.getD (min (i * step) (filtered.length - 1)) ⟨0, ""⟩) =
            ((List.range count).map (fun i => i * step)).map
              (fun k => filtered.getD k ⟨0, ""⟩) := by
          rw [List.map_map]
          refine List.map_congr_left ?_
          intro i hi
          have := hbound i (List.mem_range.mp hi)
          simp only [Function.comp]
          rw [min_eq_left (by omega)]
        rw [hmin]
        refine map_getD_sublist _ _ _ ?_ ?_
        · refine (List.pairwise_map).mpr ?_
          refine (List.pairwise_lt_range count).imp ?_
          intro a b hab
          exact Nat.mul_lt_mul_of_lt_of_le hab (le_refl step) hstep1
        · intro k hk
          obtain ⟨i, hi, rfl⟩ := List.mem_map.mp hk
          have := hbound i (List.mem_range.mp hi)
          omega

theorem select_length (allThumbnails : List MovieFrames.Thumbnail) (count : Nat) :
    (MovieFrames.selectEvenlyDistributedFrames allThumbnails count).length =
      min count (allThumbnails.filter (fun t => 0 < t.timestamp)).length := by
  simp only [MovieFrames.selectEvenlyDistributedFrames]
  by_cases h0 : allThumbnails.length = 0
  · have : allThumbnails = [] := List.length_eq_zero.mp h0
    subst this
    simp
  · rw [if_neg h0]
    by_cases h1 : (allThumbnails.filter (fun t => 0 < t.timestamp)).length = 0
    · rw [if_pos h1, h1]
      simp
    · rw [if_neg h1]
      by_cases h2 : (allThumbnails.filter (fun t => 0 < t.timestamp)).length ≤ count
      · rw [if_pos h2, Nat.min_eq_right h2]
      · rw [if_neg h2]
        simp only [List.length_map, List.length_range]
        rw [Nat.min_eq_left (le_of_lt (Nat.lt_of_not_le h2))]

/-- Claim C8: for a positive count, `selectEvenlyDistributedFrames` returns
only thumbnails with strictly positive timestamp, taken at pairwise-distinct
positions of the input in input order (a sublist of the positive-timestamp
filtering, hence of the input), and its length is exactly
`min count (number of positive-timestamp thumbnails)`. -/
theorem select_frames_spec (allThumbnails : List MovieFrames.Thumbnail) (count : Nat)
    (hc : 0 < count) :
    (∀ t ∈ MovieFrames.selectEvenlyDistributedFrames allThumbnails count,
        0 < t.timestamp) ∧
    (MovieFrames.selectEvenlyDistributedFrames allThumbnails count).Sublist
      (allThumbnails.filter (fun t => 0 < t.timestamp)) ∧
    (MovieFrames.selectEvenlyDistributedFrames allThumbnails count).Sublist allThumbnails ∧
    (MovieFrames.selectEvenlyDistributedFrames allThumbnails count).length =
      min count (allThumbnails.filter (fun t => 0 < t.timestamp)).length := by
  have hsub := select_sublist_filter allThumbnails count
  refine ⟨?_, hsub, hsub.trans (List.filter_sublist _),
    select_length allThumbnails count⟩
  intro t ht
  have hmem := hsub.subset ht
  have := (List.mem_filter.mp hmem).2
  simpa using this

/-- Witness for C8 at a concrete thumbnail list and count. -/
theorem select_frames_spec_witness :
    (∀ t ∈ MovieFrames.selectEvenlyDistributedFrames
        [⟨0, "a"⟩, ⟨1, "b"⟩, ⟨2, "c"⟩, ⟨3, "d"⟩] 2, 0 < t.timestamp) ∧
    (MovieFrames.selectEvenlyDistributedFrames
        [⟨0, "a"⟩, ⟨1, "b"⟩, ⟨2, "c"⟩, ⟨3, "d"⟩] 2).Sublist
      (([⟨0, "a"⟩, ⟨1, "b"⟩, ⟨2, "c"⟩, ⟨3, "d"⟩] :
          List MovieFrames.Thumbnail).filter (fun t => 0 < t.timestamp)) ∧
    (MovieFrames.selectEvenlyDistributedFrames
        [⟨0, "a"⟩, ⟨1, "b"⟩, ⟨2, "c"⟩, ⟨3, "d"⟩] 2).Sublist
      [⟨0, "a"⟩, ⟨1, "b"⟩, ⟨2, "c"⟩, ⟨3, "d"⟩] ∧
    (MovieFrames.selectEvenlyDistributedFrames
        [⟨0, "a"⟩, ⟨1, "b"⟩, ⟨2, "c"⟩, ⟨3, "d"⟩] 2).length =
      min 2 (([⟨0, "a"⟩, ⟨1, "b"⟩, ⟨2, "c"⟩, ⟨3, "d"⟩] :
          List MovieFrames.Thumbnail).filter (fun t => 0 < t.timestamp)).length :=
  select_frames_spec [⟨0, "a"⟩, ⟨1, "b"⟩, ⟨2, "c"⟩, ⟨3, "d"⟩] 2 (by decide)

/-- Claim C7: a failed thumbnail fetch is recorded in local error state and
the frames section renders nothing (no error escapes to the page); an empty
result also renders nothing; a successful fetch is consumed as an ordered
sub-selection of the returned (timestamp, url) list. -/
theorem thumbnails_nonfatal :
    MovieFrames.render (MovieFrames.fetchThumbnails .err) = none ∧
    MovieFrames.render (MovieFrames.fetchThumbnails (.ok [])) = none ∧
    ∀ ts : List MovieFrames.Thumbnail,
      (MovieFrames.fetchThumbnails (.ok ts)).error = none ∧
      ((MovieFrames.fetchThumbnails (.ok ts)).selectedFrames).Sublist ts := by
  refine ⟨by simp [MovieFrames.render, MovieFrames.fetchThumbnails],
    by simp [MovieFrames.render, MovieFrames.fetchThumbnails], fun ts => ⟨rfl, ?_⟩⟩
  simp only [MovieFrames.fetchThumbnails]
  by_cases h : ts.length > 0
  · rw [if_pos h]
    exact (select_sublist_filter ts 6).trans (List.filter_sublist _)
  · rw [if_neg h]
    exact List.nil_sublist _
theorem natStr_p_ne (n : Nat) (s : String) (hs : s.data.getLast? ≠ some 'p') :
    natStr n ++ "p" ≠ s := by
  intro heq
  apply hs
  rw [← heq, String.data_append, show ("p" : String).data = ['p'] from rfl]
  exact List.getLast?_concat _

theorem qualityHeight_natStr_p (n : Nat) :
    VideoPlayer.qualityHeight (natStr n ++ "p") = some n := by
  unfold VideoPlayer.qualityHeight
  rw [if_neg (natStr_p_ne n "4K" (by decide)), parse_natStr_append_p]

theorem qualityLabel_lt_480 {hgt : Nat} (hh : hgt < 480) :
    VideoPlayer.qualityLabel hgt = natStr hgt ++ "p" := by
  unfold VideoPlayer.qualityLabel
  rw [if_neg (by omega), if_neg (by omega), if_neg (by omega), if_neg (by omega)]

theorem changeQuality_finds (levels : List Nat) (cur : Int) (q : String) (hgt : Nat)
    (hq : ¬ q = "auto") (hh : VideoPlayer.qualityHeight q = some hgt)
    (hmem : hgt ∈ levels) :
    ∃ j : Nat, VideoPlayer.changeQuality levels cur q = (j : Int) ∧
      levels.getD j 0 = hgt := by
  obtain ⟨j, hj, hjl, hjp⟩ :=
    findIdx?_spec (fun lv => lv = hgt) 0 levels ⟨hgt, hmem, by simp⟩
  refine ⟨j, ?_, by simpa using hjp⟩
  unfold VideoPlayer.changeQuality
  rw [if_neg hq, hh]
  simp [hj]

theorem changeQuality_stuck (levels : List Nat) (cur : Int) (q : String) (hgt : Nat)
    (hq : ¬ q = "auto") (hh : VideoPlayer.qualityHeight q = some hgt)
    (hnone : levels.findIdx? (fun lv => lv = hgt) = none) :
    VideoPlayer.changeQuality levels cur q = cur := by
  unfold VideoPlayer.changeQuality
  rw [if_neg hq, hh]
  simp [hnone]

theorem qualityHeight_label_ladder :
    ∀ hgt ∈ VideoPlayer.ladderHeights, ¬ VideoPlayer.qualityLabel hgt = "auto" ∧
      VideoPlayer.qualityHeight (VideoPlayer.qualityLabel hgt) = some hgt := by
  decide

/-- Claim C9 is false on the code: a level height below 480 (such as 360) is
not one of the exact ladder values, yet its label `360p` decodes back to 360
and does match that level, so the current level is changed, not left
unchanged. -/
theorem quality_round_trip_fails : ¬ qualityRoundTrip := by
  intro h
  have := h.2 [360] 5 360 (by decide) (by decide)
  revert this
  decide

/-- Claim C9 amended: labels of exact ladder heights round-trip to a level of
the original height, and so do labels for heights below 480 (the label then
embeds the exact height); for a height of at least 480 that is not an exact
ladder value, the label decodes to the largest ladder height not exceeding
it, and only when no level has exactly that height is the current level left
unchanged. -/
theorem quality_selection_behavior :
    (∀ (levels : List Nat) (cur : Int) (hgt : Nat), hgt ∈ levels →
        hgt ∈ VideoPlayer.ladderHeights →
        ∃ j : Nat, VideoPlayer.changeQuality levels cur (VideoPlayer.qualityLabel hgt) =
          (j : Int) ∧ levels.getD j 0 = hgt) ∧
    (∀ (levels : List Nat) (cur : Int) (hgt : Nat), hgt ∈ levels → hgt < 480 →
        ∃ j : Nat, VideoPlayer.changeQuality levels cur (VideoPlayer.qualityLabel hgt) =
          (j : Int) ∧ levels.getD j 0 = hgt) ∧
    ∀ (levels : List Nat) (cur : Int) (hgt : Nat), 480 ≤ hgt →
      hgt ∉ VideoPlayer.ladderHeights →
      VideoPlayer.qualityHeight (VideoPlayer.qualityLabel hgt) =
          some (VideoPlayer.ladderOf hgt) ∧
        (levels.findIdx? (fun lv => lv = VideoPlayer.ladderOf hgt) = none →
          VideoPlayer.changeQuality levels cur (VideoPlayer.qualityLabel hgt) = cur) := by
  refine ⟨?_, ?_, ?_⟩
  · intro levels cur hgt hmem hlad
    obtain ⟨hne, hqh⟩ := qualityHeight_label_ladder hgt hlad
    exact changeQuality_finds levels cur _ hgt hne hqh hmem
  · intro levels cur hgt hmem hlt
    rw [qualityLabel_lt_480 hlt]
    exact changeQuality_finds levels cur _ hgt (natStr_p_ne _ "auto" (by decide))
      (qualityHeight_natStr_p hgt) hmem
  · intro levels cur hgt h480 hnl
    have hmain : VideoPlayer.qualityHeight (VideoPlayer.qualityLabel hgt) =
        some (VideoPlayer.ladderOf hgt) ∧ ¬ VideoPlayer.qualityLabel hgt = "auto" := by
      unfold VideoPlayer.qualityLabel VideoPlayer.ladderOf
      by_cases ha : hgt ≥ 2160
      · rw [if_pos ha, if_pos ha]
        exact ⟨by decide, by decide⟩
      · rw [if_neg ha, if_neg ha]
        by_cases hb : hgt ≥ 1080
        · rw [if_pos hb, if_pos hb]
          exact ⟨by decide, by decide⟩
        · rw [if_neg hb, if_neg hb]
          by_cases hc : hgt ≥ 720
          · rw [if_pos hc, if_pos hc]
            exact ⟨by decide, by decide⟩
          · rw [if_neg hc, if_neg hc, if_pos h480]
            exact ⟨by decide, by decide⟩
    exact ⟨hmain.1, fun hnone =>
      changeQuality_stuck levels cur _ _ hmain.2 hmain.1 hnone⟩

/-- Witness for the amended C9 theorem at concrete ladders and heights. -/
theorem quality_selection_behavior_witness :
    (∃ j : Nat, VideoPlayer.changeQuality [720, 480] (-1)
        (VideoPlayer.qualityLabel 720) = (j : Int) ∧ [720, 480].getD j 0 = 720) ∧
    (∃ j : Nat, VideoPlayer.changeQuality [360] (-1)
        (VideoPlayer.qualityLabel 360) = (j : Int) ∧ [360].getD j 0 = 360) ∧
    (VideoPlayer.qualityHeight (VideoPlayer.qualityLabel 600) =
        some (VideoPlayer.ladderOf 600) ∧
      ([(300 : Nat)].findIdx? (fun lv => lv = VideoPlayer.ladderOf 600) = none →
        VideoPlayer.changeQuality [300] 0 (VideoPlayer.qualityLabel 600) = 0)) :=
  ⟨quality_selection_behavior.1 [720, 480] (-1) 720 (by decide) (by decide),
   quality_selection_behavior.2.1 [360] (-1) 360 (by decide) (by decide),
   quality_selection_behavior.2.2 [300] 0 600 (by decide) (by decide)⟩
theorem ratStr_natCast (m : Nat) : ratStr ((m : ℕ) : ℚ) = natStr m := by
  unfold ratStr
  rw [Int.floor_natCast]
  rw [if_pos (by push_cast; ring)]
  simp

theorem jsMod_natCast (n b : Nat) : jsMod (n : ℚ) (b : ℚ) = ((n % b : Nat) : ℚ) := by
  unfold jsMod
  rcases Nat.eq_zero_or_pos b with hb | hb
  · subst hb
    simp
  · have h1 : ⌊(n : ℚ) / (b : ℚ)⌋ = ((n / b : Nat) : ℤ) := by
      rw [← Int.natCast_floor_eq_floor (by positivity), Nat.floor_div_eq_div]
    rw [h1, Int.cast_natCast]
    have h2 := Nat.div_add_mod n b
    have h3 : ((b * (n / b) + n % b : Nat) : ℚ) = (n : ℚ) := by rw [h2]
    push_cast at h3
    linarith

theorem floor_toNat_jsMod_natCast (n b : Nat) :
    (⌊jsMod (n : ℚ) (b : ℚ)⌋).toNat = n % b := by
  rw [jsMod_natCast, Int.floor_natCast, Int.toNat_natCast]

/-- Claim C10 amended: the two helpers agree on every nonnegative integer
number of seconds. -/
theorem format_time_agree_on_integers (n : Nat) :
    VideoPlayer.formatTime (n : ℚ) = MovieFrames.formatTime (n : ℚ) := by
  have h60 : ((60 : ℚ)) = ((60 : ℕ) : ℚ) := by norm_num
  have hsec : ratStr (jsMod (n : ℚ) 60) = natStr ((⌊jsMod (n : ℚ) 60⌋).toNat) := by
    rw [h60, jsMod_natCast, ratStr_natCast, Int.floor_natCast, Int.toNat_natCast]
  simp only [VideoPlayer.formatTime, MovieFrames.formatTime, hsec]
theorem player_formatTime_half : VideoPlayer.formatTime (123 / 2 : ℚ) = "1:01" := by
  have h0 : (⌊(123 / 2 : ℚ) / 3600⌋).toNat = 0 := by norm_num
  have h1 : jsMod (123 / 2 : ℚ) 3600 = 123 / 2 := by
    unfold jsMod
    norm_num
  have h2 : (⌊jsMod (123 / 2 : ℚ) 3600 / 60⌋).toNat = 1 := by
    rw [h1]
    norm_num
  have h3 : (⌊jsMod (123 / 2 : ℚ) 60⌋).toNat = 1 := by
    unfold jsMod
    norm_num
  simp only [VideoPlayer.formatTime, h0, h2, h3]
  decide

theorem fracDigits_half : fracDigits 20 (1 / 2 : ℚ) = "5" := by
  rw [show (20 : Nat) = 19 + 1 from rfl, fracDigits]
  rw [if_neg (by norm_num), show ⌊(1 / 2 : ℚ) * 10⌋ = 5 from by norm_num]
  rw [show ((1 / 2 : ℚ) * 10 - ((5 : ℤ) : ℚ)) = 0 from by norm_num]
  rw [show (19 : Nat) = 18 + 1 from rfl, fracDigits]
  rw [if_pos rfl]
  decide

theorem ratStr_three_halves : ratStr (3 / 2 : ℚ) = "1.5" := by
  unfold ratStr
  rw [show ⌊(3 / 2 : ℚ)⌋ = 1 from by norm_num]
  rw [if_neg (by norm_num)]
  rw [show ((3 / 2 : ℚ) - ((1 : ℤ) : ℚ)) = 1 / 2 from by norm_num, fracDigits_half]
  decide

theorem frames_formatTime_half : MovieFrames.formatTime (123 / 2 : ℚ) = "1:1.5" := by
  have h0 : (⌊(123 / 2 : ℚ) / 3600⌋).toNat = 0 := by norm_num
  have h1 : jsMod (123 / 2 : ℚ) 3600 = 123 / 2 := by
    unfold jsMod
    norm_num
  have h2 : (⌊jsMod (123 / 2 : ℚ) 3600 / 60⌋).toNat = 1 := by
    rw [h1]
    norm_num
  have h3 : jsMod (123 / 2 : ℚ) 60 = 3 / 2 := by
    unfold jsMod
    norm_num
  simp only [MovieFrames.formatTime, h0, h2, h3, ratStr_three_halves]
  decide

/-- Claim C10 is false on the code: at 61.5 seconds the player helper floors
the seconds field and renders `1:01`, while the movie-frames helper renders
the fractional remainder verbatim as `1:1.5`. -/
theorem format_time_helpers_differ : ¬ formatTimeAgreement := by
  intro h
  have := h (123 / 2) (by norm_num)
  rw [player_formatTime_half, frames_formatTime_half] at this
  exact absurd this (by decide)
